import Mathlib

set_option maxRecDepth 40000

/-!
# Verification of the xsynth core slice

Shallow embedding of the two provided source files:

* `src/core/src/soundfont.rs` — the `SquareSoundfont` soundfont, its
  `SampledVoiceSpawner`, and the runtime SIMD-capability dispatch.
* `src/realtime/examples/midi.rs` — the delta-timed event scheduler loop and
  the translation of MIDI events into control-plane events.

`f32` values are embedded as exact rationals (`ℚ`); fallible operations
(`unwrap`, slice indexing) are embedded as `Option`, where `none` models a
panic.  Wall-clock time in the scheduler is modelled explicitly: before each
event the clock advances by a nonnegative jitter, and a suspension advances
it by exactly the requested duration.
-/

namespace XSynth

/-! ## Event scheduler (src/realtime/examples/midi.rs, lines 85-95)

The dispatch loop is

```
let now = Instant::now() - Duration::from_secs_f64(0.0);
let mut time = 0.0;
for e in rx.iter() {
    if e.delta() != 0.0 {
        time += e.delta();
        let diff = time - now.elapsed().as_secs_f64();
        if diff > 0.0 {
            spin_sleep::sleep(Duration::from_secs_f64(diff));
        }
    }
    ... // emit the event into the control plane
}
```

State: `time` is the cumulative accumulator, `elapsed` models
`now.elapsed()` (wall-clock seconds since the anchor).  Between two events
the wall clock advances by an arbitrary nonnegative `jitter`; a suspension
advances it by exactly the requested duration (oversleep is absorbed into
the next jitter). -/

structure SchedState where
  time : ℚ
  elapsed : ℚ
deriving DecidableEq

/-- One iteration of the dispatch loop for an event with delta-time `d`,
after the wall clock advanced by `j` since the previous iteration.
Returns the new state and the requested suspension duration. -/
def stepEvent (s : SchedState) (j d : ℚ) : SchedState × ℚ :=
  if d ≠ 0 then
    if 0 < s.time + d - (s.elapsed + j) then
      (⟨s.time + d, (s.elapsed + j) + (s.time + d - (s.elapsed + j))⟩,
        s.time + d - (s.elapsed + j))
    else (⟨s.time + d, s.elapsed + j⟩, 0)
  else (⟨s.time, s.elapsed + j⟩, 0)

/-- What the loop did for one event: the accumulator value when the event
was dispatched, the wall-clock reading when the event was taken (before any
suspension), the requested suspension, and the state afterwards. -/
structure TraceEntry where
  sched : ℚ
  arrival : ℚ
  sleep : ℚ
  post : SchedState
deriving DecidableEq

/-- Run the dispatch loop over a list of `(jitter, delta)` pairs. -/
def runSched (s : SchedState) : List (ℚ × ℚ) → List TraceEntry
  | [] => []
  | (j, d) :: rest =>
      let r := stepEvent s j d
      ⟨r.1.time, s.elapsed + j, r.2, r.1⟩ :: runSched r.1 rest

theorem runSched_length (s : SchedState) (l : List (ℚ × ℚ)) :
    (runSched s l).length = l.length := by
  induction l generalizing s with
  | nil => rfl
  | cons p rest ih => cases p; simp [runSched, ih]

theorem stepEvent_time (s : SchedState) (j d : ℚ) :
    (stepEvent s j d).1.time = s.time + d := by
  unfold stepEvent
  by_cases hd : d ≠ 0
  · rw [if_pos hd]
    by_cases hp : (0:ℚ) < s.time + d - (s.elapsed + j)
    · rw [if_pos hp]
    · rw [if_neg hp]
  · rw [if_neg hd]
    push_neg at hd
    subst hd
    simp

theorem stepEvent_sleep (s : SchedState) (j d : ℚ)
    (hinv : s.time ≤ s.elapsed) (hj : 0 ≤ j) :
    (stepEvent s j d).2 = max 0 ((s.time + d) - (s.elapsed + j)) := by
  unfold stepEvent
  by_cases hd : d ≠ 0
  · rw [if_pos hd]
    by_cases hp : (0:ℚ) < s.time + d - (s.elapsed + j)
    · rw [if_pos hp]
      exact (max_eq_right hp.le).symm
    · rw [if_neg hp]
      push_neg at hp
      exact (max_eq_left hp).symm
  · rw [if_neg hd]
    push_neg at hd
    subst hd
    have h : s.time + 0 - (s.elapsed + j) ≤ 0 := by linarith
    exact (max_eq_left h).symm

theorem stepEvent_inv (s : SchedState) (j d : ℚ)
    (hinv : s.time ≤ s.elapsed) (hj : 0 ≤ j) :
    (stepEvent s j d).1.time ≤ (stepEvent s j d).1.elapsed := by
  unfold stepEvent
  by_cases hd : d ≠ 0
  · rw [if_pos hd]
    by_cases hp : (0:ℚ) < s.time + d - (s.elapsed + j)
    · rw [if_pos hp]
      show s.time + d ≤ (s.elapsed + j) + (s.time + d - (s.elapsed + j))
      linarith
    · rw [if_neg hp]
      push_neg at hp
      show s.time + d ≤ s.elapsed + j
      linarith
  · rw [if_neg hd]
    show s.time ≤ s.elapsed + j
    linarith

/-- Core invariant of the dispatch loop, by induction along the event list:
for every event index `i`, (1) the accumulator at dispatch equals the start
accumulator plus the sum of the deltas of events `0..i` inclusive, (2) the
requested suspension is exactly the positive part of
`scheduled - elapsed-at-arrival`, and (3) the accumulator at dispatch minus
the delta of event `i` is at most the wall clock at arrival. -/
theorem runSched_spec (l : List (ℚ × ℚ)) (s : SchedState)
    (hinv : s.time ≤ s.elapsed) (hj : ∀ p ∈ l, 0 ≤ p.1)
    (i : ℕ) (hi : i < l.length) :
    ((runSched s l).get ⟨i, by rw [runSched_length]; exact hi⟩).sched
        = s.time + ((l.take (i+1)).map Prod.snd).sum
    ∧ ((runSched s l).get ⟨i, by rw [runSched_length]; exact hi⟩).sleep
        = max 0 (((runSched s l).get ⟨i, by rw [runSched_length]; exact hi⟩).sched
            - ((runSched s l).get ⟨i, by rw [runSched_length]; exact hi⟩).arrival)
    ∧ ((runSched s l).get ⟨i, by rw [runSched_length]; exact hi⟩).sched
          - (l.get ⟨i, hi⟩).2
        ≤ ((runSched s l).get ⟨i, by rw [runSched_length]; exact hi⟩).arrival := by
  induction l generalizing s i with
  | nil => exact absurd hi (by simp)
  | cons p rest ih =>
    obtain ⟨j, d⟩ := p
    have hj0 : 0 ≤ j := hj _ (List.mem_cons_self _ _)
    have hjrest : ∀ p ∈ rest, 0 ≤ p.1 := fun p hp => hj p (List.mem_cons_of_mem _ hp)
    cases i with
    | zero =>
      refine ⟨?_, ?_, ?_⟩
      · simp [runSched, stepEvent_time]
      · simp only [runSched, List.get]
        rw [stepEvent_sleep s j d hinv hj0, stepEvent_time]
      · simp only [runSched, List.get]
        rw [stepEvent_time]
        simp only [add_sub_cancel_right]
        linarith
    | succ i =>
      have hi2 : i < rest.length := by simpa using hi
      have hinv2 : (stepEvent s j d).1.time ≤ (stepEvent s j d).1.elapsed :=
        stepEvent_inv s j d hinv hj0
      have := ih (stepEvent s j d).1 hinv2 hjrest i hi2
      simp only [runSched, List.get] at this ⊢
      refine ⟨?_, this.2.1, this.2.2⟩
      rw [this.1, stepEvent_time]
      simp [List.take_succ_cons]
      ring

/-! ## Control-plane event translation (src/realtime/examples/midi.rs, lines 96-125) -/

/-- MIDI events as delivered by the external event source. -/
inductive MidiEvent where
  | noteOn (channel key velocity : ℕ)
  | noteOff (channel key : ℕ)
  | controlChange (channel controller value : ℕ)
  | pitchWheelChange (channel : ℕ) (pitch : ℤ)
  | other
deriving DecidableEq

inductive ControlEvent where
  | raw (controller value : ℕ)
  | pitchBendValue (value : ℚ)
deriving DecidableEq

inductive ChannelEvent where
  | noteOn (key vel : ℕ)
  | noteOff (key : ℕ)
  | control (ev : ControlEvent)
deriving DecidableEq

/-- `SynthEvent::Channel(channel, event)` as sent by the dispatch loop. -/
structure SynthEventChannel where
  channel : ℕ
  event : ChannelEvent
deriving DecidableEq

/-- The `match e { ... }` arms of the dispatch loop: which control-plane
event (if any) is emitted for a given MIDI event.  `none` models the `_`
arm, which emits nothing. -/
def dispatchEvent : MidiEvent → Option SynthEventChannel
  | .noteOn channel key velocity => some ⟨channel, .noteOn key velocity⟩
  | .noteOff channel key => some ⟨channel, .noteOff key⟩
  | .controlChange channel controller value =>
      some ⟨channel, .control (.raw controller value)⟩
  | .pitchWheelChange channel pitch =>
      some ⟨channel, .control (.pitchBendValue ((pitch : ℚ) / 8192))⟩
  | .other => none

/-! ## Soundfont (src/core/src/soundfont.rs)

Sample buffers (`Arc<[f32]>`) are embedded as `List ℚ`; the per-key sample
entry (`Vec<Arc<[f32]>>`, one buffer per audio channel) as `List (List ℚ)`.
Fallible operations (`unwrap`, slice indexing) return `Option`, with `none`
modelling a panic. -/

structure AudioStreamParams where
  sample_rate : ℕ
  channels : ℕ
deriving DecidableEq

/-- Modelled from the spec: `EnvelopeDescriptor` is declared in
`core/src/voice`, which is not among the provided sources.  The spec lists
its fields as the declarative descriptor
{start_percent, delay, attack, hold, decay, sustain_percent, release}. -/
structure EnvelopeDescriptor where
  start_percent : ℚ
  delay : ℚ
  attack : ℚ
  hold : ℚ
  decay : ℚ
  sustain_percent : ℚ
  release : ℚ
deriving DecidableEq

/-- Modelled from the spec: `EnvelopeParameters` is declared in
`core/src/voice`, which is not among the provided sources.  The spec says
envelope parameters are derived from the descriptor and the output sample
rate "into sample-count durations and per-segment slopes". -/
structure EnvelopeParameters where
  start_percent : ℚ
  delay_samples : ℚ
  attack_samples : ℚ
  hold_samples : ℚ
  decay_samples : ℚ
  sustain_percent : ℚ
  release_samples : ℚ
  attack_slope : ℚ
  decay_slope : ℚ
  release_slope : ℚ
deriving DecidableEq

/-- Modelled from the spec: `EnvelopeDescriptor::to_envelope_params` lives
in `core/src/voice`, which is not among the provided sources.  Durations in
seconds become sample counts (times the sample rate) and each sloped
segment gets its per-sample slope. -/
def EnvelopeDescriptor.to_envelope_params (d : EnvelopeDescriptor)
    (sample_rate : ℕ) : EnvelopeParameters :=
  { start_percent := d.start_percent
    delay_samples := d.delay * sample_rate
    attack_samples := d.attack * sample_rate
    hold_samples := d.hold * sample_rate
    decay_samples := d.decay * sample_rate
    sustain_percent := d.sustain_percent
    release_samples := d.release * sample_rate
    attack_slope := (1 - d.start_percent) / (d.attack * sample_rate)
    decay_slope := (d.sustain_percent - 1) / (d.decay * sample_rate)
    release_slope := (0 - d.sustain_percent) / (d.release * sample_rate) }

/-- The compiled variants generated by `simd_runtime_generate!`
(`use simdeez::avx2 / sse41 / sse2 / scalar`).  Models the `S : Simd` type
parameter of `SampledVoiceSpawner<S>` (a `PhantomData` tag). -/
inductive SimdBackend where
  | avx2
  | sse41
  | sse2
  | scalar
deriving DecidableEq

/-- CPU feature flags probed by `get_runtime_select`. -/
structure CpuFeatures where
  avx2 : Bool
  sse41 : Bool
  sse2 : Bool
deriving DecidableEq

/-- The descending capability probe of `get_runtime_select`: highest
matching entry of AVX2, SSE4.1, SSE2, otherwise the scalar fallback. -/
def selectBackend (c : CpuFeatures) : SimdBackend :=
  if c.avx2 then .avx2
  else if c.sse41 then .sse41
  else if c.sse2 then .sse2
  else .scalar

structure SquareSoundfont where
  samples : List (List (List ℚ))
  volume_envelope_params : EnvelopeParameters
  stream_params : AudioStreamParams
deriving DecidableEq

structure SampledVoiceSpawner where
  base_freq : ℚ
  amp : ℚ
  volume_envelope_params : EnvelopeParameters
  samples : List (List ℚ)
  vel : ℕ
  backend : SimdBackend
deriving DecidableEq

/-- `1.04f32.powf(vel as f32 - 127.0)` with `1.04 = 26/25` exact. -/
def velAmp (vel : ℕ) : ℚ := (26/25 : ℚ) ^ ((vel : ℤ) - 127)

/-- `SampledVoiceSpawner::new` (soundfont.rs lines 86-117).  `freqs` embeds
the static table `helpers::FREQS` (128 note frequencies, indices 0-127;
its module is not among the provided sources, so the table is a
parameter).  A `none` result models an out-of-bounds index or `unwrap`
panic. -/
def SampledVoiceSpawner.new (freqs : List ℚ) (backend : SimdBackend)
    (key vel : ℕ) (sample_rate_fac : ℚ)
    (volume_envelope_params : EnvelopeParameters) (sf : SquareSoundfont) :
    Option SampledVoiceSpawner :=
  if key < 21 then do
    let samples ← sf.samples[0]?
    let fk ← freqs[key]?
    let fe ← freqs[21]?
    pure ⟨(fk / fe) * sample_rate_fac, velAmp vel, volume_envelope_params,
      samples, vel, backend⟩
  else if 108 < key then do
    let samples ← sf.samples.getLast?
    let fk ← freqs[key]?
    let fe ← freqs[108]?
    pure ⟨(fk / fe) * sample_rate_fac, velAmp vel, volume_envelope_params,
      samples, vel, backend⟩
  else do
    let samples ← sf.samples[key - 21]?
    pure ⟨1 * sample_rate_fac, velAmp vel, volume_envelope_params,
      samples, vel, backend⟩

/-- Collect the per-key loads `(21..109).map(|i| load_wav(...).unwrap())`;
any failed load makes the whole construction fail (the `unwrap` panic
propagates out of the parallel collect). -/
def loadAll (load_wav : ℕ → Option (List (List ℚ))) :
    List ℕ → Option (List (List (List ℚ)))
  | [] => some []
  | i :: rest => do
      let s ← load_wav i
      let others ← loadAll load_wav rest
      pure (s :: others)

/-- The fixed envelope descriptor of `SquareSoundfont::new`
(soundfont.rs lines 170-178). -/
def squareEnvelopeDescriptor : EnvelopeDescriptor :=
  ⟨0, 0, 0, 0, 1/10, 7/10, 1/5⟩

/-- `SquareSoundfont::new` (soundfont.rs lines 158-187).  `load_wav` embeds
`AudioFileLoader::load_wav` on the per-key sample path (the loader module
is not among the provided sources, so it is a parameter). -/
def SquareSoundfont.new (load_wav : ℕ → Option (List (List ℚ)))
    (sample_rate : ℕ) (channels : ℕ) : Option SquareSoundfont := do
  let samples ← loadAll load_wav (List.range' 21 88)
  pure { samples := samples
         volume_envelope_params :=
           squareEnvelopeDescriptor.to_envelope_params sample_rate
         stream_params := ⟨sample_rate, channels⟩ }

/-- `SquareSoundfont::get_attack_voice_spawners_at`
(soundfont.rs lines 195-218): probe the CPU once, then build one sampled
voice spawner with base sample-rate ratio `96000 / sample_rate`. -/
def SquareSoundfont.get_attack_voice_spawners_at (sf : SquareSoundfont)
    (freqs : List ℚ) (cpu : CpuFeatures) (key vel : ℕ) :
    Option (List SampledVoiceSpawner) := do
  let sr := 96000 / (sf.stream_params.sample_rate : ℚ)
  let sp ← SampledVoiceSpawner.new freqs (selectBackend cpu) key vel sr
    sf.volume_envelope_params sf
  pure [sp]

/-- `SquareSoundfont::get_release_voice_spawners_at`
(soundfont.rs lines 220-222). -/
def SquareSoundfont.get_release_voice_spawners_at (_sf : SquareSoundfont)
    (_key _vel : ℕ) : List SampledVoiceSpawner := []

/-! ## Helper lemmas about the soundfont embedding -/

/-- The frequency ratio the spawner applies for a requested key: `1` inside
the covered range `21..=108`, otherwise the ratio between the requested key
and the nearest edge key. -/
def keyRatio (freqs : List ℚ) (key : ℕ) : ℚ :=
  if key < 21 then freqs.getD key 0 / freqs.getD 21 0
  else if 108 < key then freqs.getD key 0 / freqs.getD 108 0
  else 1

/-- Which entry of the 88-entry sample table the spawner reads for a
requested key: the edge entries outside the covered range, the exact entry
inside it. -/
def keySampleIndex (key : ℕ) : ℕ :=
  if key < 21 then 0 else if 108 < key then 87 else key - 21

theorem list_getElem?_getD {α : Type} (l : List α) (i : ℕ) (d : α)
    (h : i < l.length) : l[i]? = some (l.getD i d) := by
  rw [List.getD_eq_getElem?_getD, List.getElem?_eq_getElem h]
  rfl

/-- Closed form of `SampledVoiceSpawner::new` when the tables are in
bounds: construction succeeds and picks sample entry and pitch ratio by
the key-range rule. -/
theorem SampledVoiceSpawner.new_eq (freqs : List ℚ) (b : SimdBackend)
    (key vel : ℕ) (fac : ℚ) (env : EnvelopeParameters)
    (sf : SquareSoundfont) (h88 : sf.samples.length = 88)
    (hf : freqs.length = 128) (hk : key ≤ 127) :
    SampledVoiceSpawner.new freqs b key vel fac env sf
      = some ⟨keyRatio freqs key * fac, velAmp vel, env,
          sf.samples.getD (keySampleIndex key) [], vel, b⟩ := by
  unfold SampledVoiceSpawner.new keyRatio keySampleIndex
  by_cases h21 : key < 21
  · rw [if_pos h21, if_pos h21, if_pos h21,
      list_getElem?_getD sf.samples 0 [] (by omega),
      list_getElem?_getD freqs key 0 (by omega),
      list_getElem?_getD freqs 21 0 (by omega)]
    rfl
  · by_cases h108 : 108 < key
    · rw [if_neg h21, if_neg h21, if_neg h21, if_pos h108, if_pos h108,
        if_pos h108, List.getLast?_eq_getElem?, h88,
        list_getElem?_getD sf.samples (88 - 1) [] (by omega),
        list_getElem?_getD freqs key 0 (by omega),
        list_getElem?_getD freqs 108 0 (by omega)]
      rfl
    · rw [if_neg h21, if_neg h21, if_neg h21, if_neg h108, if_neg h108,
        if_neg h108, list_getElem?_getD sf.samples (key - 21) [] (by omega)]
      rfl

/-- When `SampledVoiceSpawner::new` returns a spawner, the envelope
parameters, amplitude, velocity and backend tag it captured are the ones
passed in, whichever key branch was taken. -/
theorem SampledVoiceSpawner.new_fields (freqs : List ℚ) (b : SimdBackend)
    (key vel : ℕ) (fac : ℚ) (env : EnvelopeParameters)
    (sf : SquareSoundfont) (sp : SampledVoiceSpawner)
    (h : SampledVoiceSpawner.new freqs b key vel fac env sf = some sp) :
    sp.volume_envelope_params = env ∧ sp.amp = velAmp vel ∧ sp.vel = vel
      ∧ sp.backend = b := by
  unfold SampledVoiceSpawner.new at h
  by_cases h21 : key < 21
  · rw [if_pos h21] at h
    simp only [Option.pure_def, Option.bind_eq_bind, Option.bind_eq_some,
      Option.some.injEq] at h
    obtain ⟨s, hs, fk, hfk, fe, hfe, rfl⟩ := h
    exact ⟨rfl, rfl, rfl, rfl⟩
  · by_cases h108 : 108 < key
    · rw [if_neg h21, if_pos h108] at h
      simp only [Option.pure_def, Option.bind_eq_bind, Option.bind_eq_some,
        Option.some.injEq] at h
      obtain ⟨s, hs, fk, hfk, fe, hfe, rfl⟩ := h
      exact ⟨rfl, rfl, rfl, rfl⟩
    · rw [if_neg h21, if_neg h108] at h
      simp only [Option.pure_def, Option.bind_eq_bind, Option.bind_eq_some,
        Option.some.injEq] at h
      obtain ⟨s, hs, rfl⟩ := h
      exact ⟨rfl, rfl, rfl, rfl⟩

/-- The observable parameters of a spawner: everything except the SIMD
backend type tag. -/
def spawnerObs (sp : SampledVoiceSpawner) :
    ℚ × ℚ × EnvelopeParameters × List (List ℚ) × ℕ :=
  (sp.base_freq, sp.amp, sp.volume_envelope_params, sp.samples, sp.vel)

/-- The backend type parameter does not influence anything observable
about the spawner `SampledVoiceSpawner::new` builds, nor whether it
builds one. -/
theorem SampledVoiceSpawner.new_obs (freqs : List ℚ)
    (b1 b2 : SimdBackend) (key vel : ℕ) (fac : ℚ)
    (env : EnvelopeParameters) (sf : SquareSoundfont) :
    (SampledVoiceSpawner.new freqs b1 key vel fac env sf).map spawnerObs
      = (SampledVoiceSpawner.new freqs b2 key vel fac env sf).map
          spawnerObs := by
  unfold SampledVoiceSpawner.new
  by_cases h21 : key < 21
  · simp only [if_pos h21]
    cases sf.samples[0]? <;> cases freqs[key]? <;> cases freqs[21]? <;> rfl
  · by_cases h108 : 108 < key
    · simp only [if_neg h21, if_pos h108]
      cases sf.samples.getLast? <;> cases freqs[key]? <;>
        cases freqs[108]? <;> rfl
    · simp only [if_neg h21, if_neg h108]
      cases sf.samples[key - 21]? <;> rfl

theorem loadAll_length (load_wav : ℕ → Option (List (List ℚ)))
    (l : List ℕ) (r : List (List (List ℚ))) (h : loadAll load_wav l = some r) :
    r.length = l.length := by
  induction l generalizing r with
  | nil =>
    unfold loadAll at h
    cases h
    rfl
  | cons i rest ih =>
    unfold loadAll at h
    simp only [Option.pure_def, Option.bind_eq_bind, Option.bind_eq_some,
      Option.some.injEq] at h
    obtain ⟨s, hs, others, ho, rfl⟩ := h
    simp [ih _ ho]

/-- When `SquareSoundfont::new` returns, the sample table has exactly one
entry per key of `21..=108`, the envelope parameters come from the fixed
descriptor and the sample rate, and the stream parameters are the ones
passed in. -/
theorem SquareSoundfont.new_invariants (load_wav : ℕ → Option (List (List ℚ)))
    (sample_rate channels : ℕ) (sf : SquareSoundfont)
    (h : SquareSoundfont.new load_wav sample_rate channels = some sf) :
    sf.samples.length = 88
      ∧ sf.volume_envelope_params
          = squareEnvelopeDescriptor.to_envelope_params sample_rate
      ∧ sf.stream_params = ⟨sample_rate, channels⟩ := by
  unfold SquareSoundfont.new at h
  simp only [Option.pure_def, Option.bind_eq_bind, Option.bind_eq_some,
    Option.some.injEq] at h
  obtain ⟨samples, hs, rfl⟩ := h
  refine ⟨?_, rfl, rfl⟩
  simpa using loadAll_length _ _ _ hs

/-- `get_attack_voice_spawners_at` wraps the single spawner built by
`SampledVoiceSpawner::new` for the backend the CPU probe selected, with
base sample-rate ratio `96000 / sample_rate`. -/
theorem SquareSoundfont.get_attack_eq (sf : SquareSoundfont)
    (freqs : List ℚ) (cpu : CpuFeatures) (key vel : ℕ) :
    sf.get_attack_voice_spawners_at freqs cpu key vel
      = (SampledVoiceSpawner.new freqs (selectBackend cpu) key vel
          (96000 / (sf.stream_params.sample_rate : ℚ))
          sf.volume_envelope_params sf).map (fun sp => [sp]) := by
  unfold SquareSoundfont.get_attack_voice_spawners_at
  cases h : SampledVoiceSpawner.new freqs (selectBackend cpu) key vel
    (96000 / (sf.stream_params.sample_rate : ℚ))
    sf.volume_envelope_params sf <;> simp [h]

/-! ## Concrete fixtures used by the witness theorems -/

/-- A concrete stand-in frequency table with 128 entries. -/
def testFreqs : List ℚ := (List.range 128).map (fun i => (i : ℚ) + 1)

/-- A loader that succeeds on every key. -/
def testLoader : ℕ → Option (List (List ℚ)) :=
  fun i => some [[(i : ℚ)], [(i : ℚ)]]

def fallbackSf : SquareSoundfont :=
  ⟨[], squareEnvelopeDescriptor.to_envelope_params 48000, ⟨48000, 2⟩⟩

/-- The soundfont built from `testLoader` at 48 kHz stereo. -/
def testSf : SquareSoundfont :=
  (SquareSoundfont.new testLoader 48000 2).getD fallbackSf

/-- A loader whose sample for key 60 is missing. -/
def failingLoader : ℕ → Option (List (List ℚ)) :=
  fun i => if i = 60 then none else some [[0], [0]]

def allCpu : CpuFeatures := ⟨true, true, true⟩

def fallbackSpawner : SampledVoiceSpawner :=
  ⟨0, 0, squareEnvelopeDescriptor.to_envelope_params 48000, [], 0, .scalar⟩

def testSpawner : SampledVoiceSpawner :=
  (SampledVoiceSpawner.new testFreqs .scalar 60 100 2
    (squareEnvelopeDescriptor.to_envelope_params 48000) testSf).getD
    fallbackSpawner

def testSps : List SampledVoiceSpawner :=
  (testSf.get_attack_voice_spawners_at testFreqs allCpu 60 100).getD []

/-! ## Claim theorems -/

/-- Claim C1: for every MIDI key (0-127) and velocity, the attack voice
spawner built by `SquareSoundfont` uses the exact per-key sample
(`samples[key-21]`) with frequency ratio 1 for keys inside the covered
range `21..=108`; for keys below the range it borrows the key-21 sample
(`samples[0]`) and for keys above it the key-108 sample (`samples[87]`,
the last), pitch-shifted by the frequency ratio `FREQS[key]/FREQS[edge]`;
in all cases the effective pitch factor is that frequency ratio multiplied
by the base rate ratio `96000 / sample_rate`. -/
theorem C1_key_to_sample_mapping (freqs : List ℚ) (cpu : CpuFeatures)
    (sf : SquareSoundfont) (key vel : ℕ) (h88 : sf.samples.length = 88)
    (hf : freqs.length = 128) (hk : key ≤ 127) :
    ∃ sp, sf.get_attack_voice_spawners_at freqs cpu key vel = some [sp]
      ∧ (21 ≤ key → key ≤ 108 →
          sp.samples = sf.samples.getD (key - 21) []
            ∧ sp.base_freq
                = 1 * (96000 / (sf.stream_params.sample_rate : ℚ)))
      ∧ (key < 21 →
          sp.samples = sf.samples.getD 0 []
            ∧ sp.base_freq
                = (freqs.getD key 0 / freqs.getD 21 0)
                    * (96000 / (sf.stream_params.sample_rate : ℚ)))
      ∧ (108 < key →
          sp.samples = sf.samples.getD 87 []
            ∧ sp.base_freq
                = (freqs.getD key 0 / freqs.getD 108 0)
                    * (96000 / (sf.stream_params.sample_rate : ℚ))) := by
  rw [SquareSoundfont.get_attack_eq,
    SampledVoiceSpawner.new_eq freqs (selectBackend cpu) key vel _ _ sf
      h88 hf hk, Option.map_some']
  refine ⟨_, rfl, ?_, ?_, ?_⟩
  · intro hlo hhi
    constructor
    · show sf.samples.getD (keySampleIndex key) [] = sf.samples.getD (key - 21) []
      rw [keySampleIndex, if_neg (by omega), if_neg (by omega)]
    · show keyRatio freqs key * _ = 1 * _
      rw [keyRatio, if_neg (by omega), if_neg (by omega)]
  · intro h21
    constructor
    · show sf.samples.getD (keySampleIndex key) [] = sf.samples.getD 0 []
      rw [keySampleIndex, if_pos h21]
    · show keyRatio freqs key * _ = _ * _
      rw [keyRatio, if_pos h21]
  · intro h108
    constructor
    · show sf.samples.getD (keySampleIndex key) [] = sf.samples.getD 87 []
      rw [keySampleIndex, if_neg (by omega), if_pos h108]
    · show keyRatio freqs key * _ = _ * _
      rw [keyRatio, if_neg (by omega), if_pos h108]

theorem C1_key_to_sample_mapping_witness :
    (testSf.samples.length = 88 ∧ testFreqs.length = 128 ∧ (5:ℕ) ≤ 127)
    ∧ (∃ sp,
        testSf.get_attack_voice_spawners_at testFreqs allCpu 5 100
            = some [sp]
        ∧ (21 ≤ 5 → 5 ≤ 108 →
            sp.samples = testSf.samples.getD (5 - 21) []
              ∧ sp.base_freq
                  = 1 * (96000 / (testSf.stream_params.sample_rate : ℚ)))
        ∧ (5 < 21 →
            sp.samples = testSf.samples.getD 0 []
              ∧ sp.base_freq
                  = (testFreqs.getD 5 0 / testFreqs.getD 21 0)
                      * (96000 / (testSf.stream_params.sample_rate : ℚ)))
        ∧ (108 < 5 →
            sp.samples = testSf.samples.getD 87 []
              ∧ sp.base_freq
                  = (testFreqs.getD 5 0 / testFreqs.getD 108 0)
                      * (96000 / (testSf.stream_params.sample_rate : ℚ)))) :=
  ⟨⟨by decide, by decide, by decide⟩,
    C1_key_to_sample_mapping testFreqs allCpu testSf 5 100 (by decide)
      (by decide) (by decide)⟩

/-- Claim C2 (the code diverges from it): evaluating `SquareSoundfont::new`
with a loader whose sample for key 60 is missing.  Construction is aborted
(no partial soundfont, no substituted silence), but the result carries no
typed error value: the `unwrap` inside the parallel load panics, which is
modelled by the `none` result, instead of returning a construction-time
error to the caller as the claim states. -/
theorem C2_load_failure_aborts_without_error_value :
    SquareSoundfont.new failingLoader 48000 2 = none := by rfl

/-- Claim C3: the scheduler keeps one cumulative accumulator anchored once
at stream start: at every event index the accumulator equals the sum of
the delta-times of the events so far, and the requested suspension before
emitting the event is exactly the positive part of the difference between
that scheduled time and the wall-clock time elapsed since the anchor. -/
theorem C3_cumulative_accumulator_pacing (events : List (ℚ × ℚ))
    (hj : ∀ p ∈ events, 0 ≤ p.1) (i : ℕ) (hi : i < events.length) :
    ((runSched ⟨0, 0⟩ events).get
          ⟨i, by rw [runSched_length]; exact hi⟩).sched
        = ((events.take (i + 1)).map Prod.snd).sum
      ∧ ((runSched ⟨0, 0⟩ events).get
            ⟨i, by rw [runSched_length]; exact hi⟩).sleep
          = max 0
              (((runSched ⟨0, 0⟩ events).get
                  ⟨i, by rw [runSched_length]; exact hi⟩).sched
                - ((runSched ⟨0, 0⟩ events).get
                    ⟨i, by rw [runSched_length]; exact hi⟩).arrival) := by
  have h := runSched_spec events ⟨0, 0⟩ le_rfl hj i hi
  exact ⟨by simpa using h.1, h.2.1⟩

theorem C3_cumulative_accumulator_pacing_witness :
    (∀ p ∈ [((0:ℚ), (1/2:ℚ))], 0 ≤ p.1)
    ∧ (((runSched ⟨0, 0⟩ [((0:ℚ), (1/2:ℚ))]).get ⟨0, by decide⟩).sched
          = (([((0:ℚ), (1/2:ℚ))].take 1).map Prod.snd).sum
        ∧ ((runSched ⟨0, 0⟩ [((0:ℚ), (1/2:ℚ))]).get ⟨0, by decide⟩).sleep
            = max 0
                (((runSched ⟨0, 0⟩ [((0:ℚ), (1/2:ℚ))]).get
                    ⟨0, by decide⟩).sched
                  - ((runSched ⟨0, 0⟩ [((0:ℚ), (1/2:ℚ))]).get
                      ⟨0, by decide⟩).arrival)) :=
  ⟨by decide,
    C3_cumulative_accumulator_pacing [((0:ℚ), (1/2:ℚ))] (by decide) 0
      (by decide)⟩

/-- Claim C4: an event whose delta-time is zero or negative is dispatched
immediately: the loop requests no suspension before emitting it. -/
theorem C4_nonpositive_delta_dispatches_immediately
    (events : List (ℚ × ℚ)) (hj : ∀ p ∈ events, 0 ≤ p.1)
    (i : ℕ) (hi : i < events.length)
    (hd : (events.get ⟨i, hi⟩).2 ≤ 0) :
    ((runSched ⟨0, 0⟩ events).get
        ⟨i, by rw [runSched_length]; exact hi⟩).sleep = 0 := by
  have h := runSched_spec events ⟨0, 0⟩ le_rfl hj i hi
  rw [h.2.1]
  refine max_eq_left ?_
  have h3 := h.2.2
  linarith

theorem C4_nonpositive_delta_dispatches_immediately_witness :
    ((∀ p ∈ [((0:ℚ), (1:ℚ)), ((0:ℚ), (-1:ℚ))], 0 ≤ p.1)
      ∧ ([((0:ℚ), (1:ℚ)), ((0:ℚ), (-1:ℚ))].get ⟨1, by decide⟩).2 ≤ 0)
    ∧ ((runSched ⟨0, 0⟩ [((0:ℚ), (1:ℚ)), ((0:ℚ), (-1:ℚ))]).get
        ⟨1, by decide⟩).sleep = 0 :=
  ⟨⟨by decide, by decide⟩,
    C4_nonpositive_delta_dispatches_immediately
      [((0:ℚ), (1:ℚ)), ((0:ℚ), (-1:ℚ))] (by decide) 1 (by decide)
      (by decide)⟩

/-- Claim C5: `SquareSoundfont` derives its envelope parameters once at
construction, from the fixed descriptor {start_percent 0, delay 0,
attack 0, hold 0, decay 0.1, sustain_percent 0.7, release 0.2} and the
output sample rate, and every attack spawner it returns carries exactly
those envelope parameters. -/
theorem C5_envelope_derived_once_and_shared
    (load_wav : ℕ → Option (List (List ℚ))) (sample_rate channels : ℕ)
    (sf : SquareSoundfont) (freqs : List ℚ) (cpu : CpuFeatures)
    (key vel : ℕ) (sps : List SampledVoiceSpawner)
    (hsf : SquareSoundfont.new load_wav sample_rate channels = some sf)
    (hsp : sf.get_attack_voice_spawners_at freqs cpu key vel = some sps) :
    squareEnvelopeDescriptor = ⟨0, 0, 0, 0, 1/10, 7/10, 1/5⟩
      ∧ sf.volume_envelope_params
          = squareEnvelopeDescriptor.to_envelope_params sample_rate
      ∧ sps.map SampledVoiceSpawner.volume_envelope_params
          = List.replicate sps.length sf.volume_envelope_params := by
  obtain ⟨-, henv, -⟩ := SquareSoundfont.new_invariants _ _ _ _ hsf
  refine ⟨rfl, henv, ?_⟩
  rw [SquareSoundfont.get_attack_eq] at hsp
  cases hnew : SampledVoiceSpawner.new freqs (selectBackend cpu) key vel
      (96000 / (sf.stream_params.sample_rate : ℚ))
      sf.volume_envelope_params sf with
  | none => rw [hnew] at hsp; simp at hsp
  | some sp =>
    rw [hnew] at hsp
    simp only [Option.map_some', Option.some.injEq] at hsp
    subst hsp
    obtain ⟨he, -, -, -⟩ :=
      SampledVoiceSpawner.new_fields _ _ _ _ _ _ _ _ hnew
    simp [he]

theorem C5_envelope_derived_once_and_shared_witness :
    (SquareSoundfont.new testLoader 48000 2 = some testSf
      ∧ testSf.get_attack_voice_spawners_at testFreqs allCpu 60 100
          = some testSps)
    ∧ (squareEnvelopeDescriptor = ⟨0, 0, 0, 0, 1/10, 7/10, 1/5⟩
        ∧ testSf.volume_envelope_params
            = squareEnvelopeDescriptor.to_envelope_params 48000
        ∧ testSps.map SampledVoiceSpawner.volume_envelope_params
            = List.replicate testSps.length testSf.volume_envelope_params) :=
  ⟨⟨by rfl, by rfl⟩,
    C5_envelope_derived_once_and_shared testLoader 48000 2 testSf testFreqs
      allCpu 60 100 testSps (by rfl) (by rfl)⟩

/-- Claim C6: the runtime CPU-capability selection does not affect the
observable parameters of the spawners `get_attack_voice_spawners_at`
returns: for any two CPU feature sets (hence any two selected compiled
variants, AVX2, SSE4.1, SSE2 or scalar), the produced spawner lists agree
on samples, base frequency, amplitude, velocity and envelope parameters,
and construction succeeds for one exactly when it does for the other. -/
theorem C6_backend_selection_unobservable (freqs : List ℚ)
    (cpu1 cpu2 : CpuFeatures) (sf : SquareSoundfont) (key vel : ℕ) :
    (sf.get_attack_voice_spawners_at freqs cpu1 key vel).map
        (List.map spawnerObs)
      = (sf.get_attack_voice_spawners_at freqs cpu2 key vel).map
          (List.map spawnerObs) := by
  rw [SquareSoundfont.get_attack_eq, SquareSoundfont.get_attack_eq,
    Option.map_map, Option.map_map]
  have hcomp : ∀ x : Option SampledVoiceSpawner,
      x.map (List.map spawnerObs ∘ fun sp => [sp])
        = (x.map spawnerObs).map (fun o => [o]) := by
    intro x; cases x <;> rfl
  rw [hcomp, hcomp,
    SampledVoiceSpawner.new_obs freqs (selectBackend cpu1)
      (selectBackend cpu2) key vel
      (96000 / (sf.stream_params.sample_rate : ℚ))
      sf.volume_envelope_params sf]

/-- Claim C7: every pitch-bend event dispatched into the control plane
carries the raw pitch-wheel value divided by 8192, and over the signed
14-bit pitch-wheel range `-8192..=8191` this normalized value lies in
`[-1, 1]`. -/
theorem C7_pitch_bend_normalized (channel : ℕ) (pitch : ℤ)
    (h1 : -8192 ≤ pitch) (h2 : pitch ≤ 8191) :
    dispatchEvent (.pitchWheelChange channel pitch)
        = some ⟨channel, .control (.pitchBendValue ((pitch : ℚ) / 8192))⟩
      ∧ -1 ≤ (pitch : ℚ) / 8192 ∧ (pitch : ℚ) / 8192 ≤ 1 := by
  have hp : ((pitch : ℚ)) ≤ 8191 := by exact_mod_cast h2
  have hm : (-8192 : ℚ) ≤ (pitch : ℚ) := by exact_mod_cast h1
  refine ⟨rfl, ?_, ?_⟩
  · rw [le_div_iff₀ (by norm_num : (0:ℚ) < 8192)]
    linarith
  · rw [div_le_one (by norm_num : (0:ℚ) < 8192)]
    linarith

theorem C7_pitch_bend_normalized_witness :
    ((-8192 : ℤ) ≤ -8192 ∧ (-8192 : ℤ) ≤ 8191)
    ∧ (dispatchEvent (.pitchWheelChange 0 (-8192))
          = some ⟨0, .control (.pitchBendValue (((-8192 : ℤ) : ℚ) / 8192))⟩
        ∧ -1 ≤ (((-8192 : ℤ) : ℚ)) / 8192
        ∧ (((-8192 : ℤ) : ℚ)) / 8192 ≤ 1) :=
  ⟨⟨by decide, by decide⟩,
    C7_pitch_bend_normalized 0 (-8192) (by decide) (by decide)⟩

/-- Claim C8: for every MIDI key (0-127) and velocity, building an attack
spawner from a successfully constructed `SquareSoundfont` never fails: the
sample table holds one entry per key of `21..=108`, every table access is
in bounds, and `get_attack_voice_spawners_at` returns exactly one spawner,
never zero. -/
theorem C8_attack_spawner_never_fails
    (load_wav : ℕ → Option (List (List ℚ))) (sample_rate channels : ℕ)
    (sf : SquareSoundfont) (freqs : List ℚ) (cpu : CpuFeatures)
    (key vel : ℕ)
    (hsf : SquareSoundfont.new load_wav sample_rate channels = some sf)
    (hf : freqs.length = 128) (hk : key ≤ 127) :
    sf.samples.length = 88
      ∧ ∃ sp, sf.get_attack_voice_spawners_at freqs cpu key vel
          = some [sp] := by
  obtain ⟨h88, -, -⟩ := SquareSoundfont.new_invariants _ _ _ _ hsf
  refine ⟨h88, ?_⟩
  rw [SquareSoundfont.get_attack_eq,
    SampledVoiceSpawner.new_eq freqs (selectBackend cpu) key vel _ _ sf
      h88 hf hk, Option.map_some']
  exact ⟨_, rfl⟩

theorem C8_attack_spawner_never_fails_witness :
    (SquareSoundfont.new testLoader 48000 2 = some testSf
      ∧ testFreqs.length = 128 ∧ (127:ℕ) ≤ 127)
    ∧ (testSf.samples.length = 88
        ∧ ∃ sp, testSf.get_attack_voice_spawners_at testFreqs allCpu 127 1
            = some [sp]) :=
  ⟨⟨by rfl, by decide, by decide⟩,
    C8_attack_spawner_never_fails testLoader 48000 2 testSf testFreqs
      allCpu 127 1 (by rfl) (by decide) (by decide)⟩

/-- Claim C9: `SquareSoundfont::get_release_voice_spawners_at` returns the
empty vector for every key and velocity: the soundfont has no
release-triggered layers, so a NoteOff never spawns a release voice from
it. -/
theorem C9_no_release_spawners (sf : SquareSoundfont) (key vel : ℕ) :
    sf.get_release_voice_spawners_at key vel = [] := rfl

/-- Claim C10: the velocity-derived amplitude captured by a spawner equals
`1.04 ^ (velocity - 127)` (with `1.04 = 26/25` exact): it is exactly 1 at
velocity 127, strictly below 1 for every velocity below 127, and strictly
increasing in velocity. -/
theorem C10_velocity_amplitude (freqs : List ℚ) (b : SimdBackend)
    (key : ℕ) (fac : ℚ) (env : EnvelopeParameters) (sf : SquareSoundfont)
    (sp : SampledVoiceSpawner) (v w : ℕ) (hv : v < 127) (hvw : v < w)
    (hsp : SampledVoiceSpawner.new freqs b key v fac env sf = some sp) :
    sp.amp = velAmp v
      ∧ velAmp v = (26/25 : ℚ) ^ ((v : ℤ) - 127)
      ∧ velAmp 127 = 1
      ∧ velAmp v < 1
      ∧ velAmp v < velAmp w := by
  obtain ⟨-, hamp, -, -⟩ :=
    SampledVoiceSpawner.new_fields _ _ _ _ _ _ _ _ hsp
  have hbase : (1:ℚ) < 26/25 := by norm_num
  refine ⟨hamp, rfl, ?_, ?_, ?_⟩
  · simp [velAmp]
  · exact zpow_lt_one_of_neg₀ hbase (by omega)
  · exact zpow_lt_zpow_right₀ hbase (by omega)

theorem C10_velocity_amplitude_witness :
    ((100:ℕ) < 127 ∧ (100:ℕ) < 120
      ∧ SampledVoiceSpawner.new testFreqs .scalar 60 100 2
          (squareEnvelopeDescriptor.to_envelope_params 48000) testSf
          = some testSpawner)
    ∧ (testSpawner.amp = velAmp 100
        ∧ velAmp 100 = (26/25 : ℚ) ^ (((100:ℕ) : ℤ) - 127)
        ∧ velAmp 127 = 1
        ∧ velAmp 100 < 1
        ∧ velAmp 100 < velAmp 120) :=
  ⟨⟨by decide, by decide, by rfl⟩,
    C10_velocity_amplitude testFreqs .scalar 60 2
      (squareEnvelopeDescriptor.to_envelope_params 48000) testSf
      testSpawner 100 120 (by decide) (by decide) (by rfl)⟩

end XSynth
